import Mathlib

/-!
Verification of the Monte Carlo forecasting engine of the `kwando` repository.

The development shallowly embeds the core of `monte_carlo.py` (module-level
functions) and `src/monte_carlo.py` (the `MonteCarloSimulator` class and its
helpers): samples are lists of rationals (pandas float columns), draws of
`random.choice` are modelled by an index selector applied modulo the sample
length, the unbounded `while True` resampling loop of Operation B is modelled
with explicit fuel returning `Option` (`none` marks a run that has not
terminated within the given fuel), and `np.quantile` is modelled by its
documented linear-interpolation rule over the sorted data.
-/

namespace Kwando

/-- Embeds `PERCENTILES = [70, 80, 90, 95, 98]` from `monte_carlo.py`. -/
def PERCENTILES : List ℕ := [70, 80, 90, 95, 98]

/-- Embeds `random.choice(cycle_times)`: the value returned is the entry of
`l` at some index; the raw index `k` supplied by the ambient randomness is
reduced modulo the length, so that on a non-empty list every draw is an
element of the list and every element can be drawn. -/
def choice (l : List ℚ) (k : ℕ) : ℚ := l.getD (k % l.length) 0

/-- Embeds the helper `cumulative_sum(total_work_items, cycle_times, selector)`
of `forecast_days_for_work_items`: starting from `[0]`, it appends
`selector(..) + total[-1]` once per work item; `sel t` is the value produced
by the `t`-th call of the selector. -/
def cumulative_sum (sel : ℕ → ℚ) : ℕ → List ℚ
  | 0 => [0]
  | n + 1 =>
    let prev := cumulative_sum sel n
    prev ++ [sel n + prev.getLastD 0]

/-- Embeds `np.quantile(data, p)` with the default linear-interpolation
method: with `s` the sorted data, `n` its length and `h = p * (n - 1)`,
the result is `s[⌊h⌋] + (h - ⌊h⌋) * (s[min (⌊h⌋+1) (n-1)] - s[⌊h⌋])`. -/
def quantile (data : List ℚ) (p : ℚ) : ℚ :=
  let s := List.insertionSort (· ≤ ·) data
  let n := data.length
  let h := p * ((n : ℚ) - 1)
  let i := (⌊h⌋).toNat
  let j := min (i + 1) (n - 1)
  s.getD i 0 + (h - (i : ℚ)) * (s.getD j 0 - s.getD i 0)

/-- Embeds the dict comprehension
`{str(p): float(np.quantile(data, p / 100)) for p in PERCENTILES}`;
keys are kept as the numeric percentile levels. -/
def percentileTable (data : List ℚ) : List (ℕ × ℚ) :=
  PERCENTILES.map (fun p => (p, quantile data ((p : ℚ) / 100)))

/-- Embeds `(start_ts + pd.Timedelta(days=v)).date()` where `start_ts` is a
midnight timestamp of day number `day`: adding `v` days to midnight and
truncating back to a date keeps the integer part of `v`. -/
def addDaysToDate (day : ℤ) (v : ℚ) : ℤ := day + ⌊v⌋

/-- Result dictionary of `forecast_days_for_work_items` (Operation A);
dates are day numbers. -/
structure ForecastDaysResult where
  simulated_durations : List ℚ
  percentiles : List (ℕ × ℚ)
  percentile_dates : List (ℕ × ℤ)
  num_work_items : ℕ
  num_iterations : ℕ
  deriving DecidableEq

/-- Result dictionary returned by the guard branches of
`forecast_days_for_work_items` (load error / missing column / empty sample). -/
def emptyDaysResult (numWorkItems numIterations : ℕ) : ForecastDaysResult :=
  ⟨[], [], [], numWorkItems, numIterations⟩

/-- Embeds the per-trial totals of `forecast_days_for_work_items`: for each of
the `numIterations` runs, the last entry of the cumulative-sum walk built from
`numWorkItems` draws; `picks it t` is the raw random index of the `t`-th draw
of iteration `it`. -/
def simulatedTotals (cts : List ℚ) (picks : ℕ → ℕ → ℕ)
    (numWorkItems numIterations : ℕ) : List ℚ :=
  (List.range numIterations).map
    (fun it => (cumulative_sum (fun t => choice cts (picks it t)) numWorkItems).getLastD 0)

/-- Embeds `forecast_days_for_work_items` (Operation A).  `df` is the
`cycle_time_days` column when the loaded frame has one (`none` embeds both the
load-error frame of `monte_carlo.py` and the `df is None or "cycle_time_days"
not in df.columns` guard of `src/monte_carlo.py`); `todayDay` is the day
number of `pd.Timestamp.today().normalize()`. -/
def forecast_days_for_work_items (df : Option (List ℚ)) (todayDay : ℤ)
    (numWorkItems numIterations : ℕ) (picks : ℕ → ℕ → ℕ) : ForecastDaysResult :=
  match df with
  | none => emptyDaysResult numWorkItems numIterations
  | some cycle_times =>
    if cycle_times.length = 0 then emptyDaysResult numWorkItems numIterations
    else
      let totals := simulatedTotals cycle_times picks numWorkItems numIterations
      let percentiles := percentileTable totals
      let percentile_dates := percentiles.map (fun pv => (pv.1, addDaysToDate todayDay pv.2))
      ⟨totals, percentiles, percentile_dates, numWorkItems, numIterations⟩

/-- Embeds one pass of the `while True` loop of `simulate_days` (Operation B):
`n = random.choice(cycle_times) + simulated_cycle_times[-1]`, break when
`n > max_days`, otherwise append.  `count` is `len(simulated_cycle_times) - 1`,
`total` the last accumulated value, and `pick count` the raw random index of
draw number `count`.  The Python loop is unbounded; the embedding spends one
unit of fuel per draw and returns `none` when a run does not terminate within
the given fuel. -/
def simulateTrialLoop (cts : List ℚ) (pick : ℕ → ℕ) (maxDays : ℤ) :
    ℕ → ℕ → ℚ → Option ℕ
  | 0, _, _ => none
  | fuel + 1, count, total =>
    let n := choice cts (pick count) + total
    if (maxDays : ℚ) < n then some count
    else simulateTrialLoop cts pick maxDays fuel (count + 1) n

/-- Embeds `simulate_days(num_of_iterations, max_days, cycle_times)`: one
trial per iteration, each a fresh run of the resampling loop (default 0 is
never reached when the loop terminates). -/
def simulate_days (cts : List ℚ) (picks : ℕ → ℕ → ℕ) (maxDays : ℤ)
    (numIterations fuel : ℕ) : List ℕ :=
  (List.range numIterations).map
    (fun it => (simulateTrialLoop cts (picks it) maxDays fuel 0 0).getD 0)

/-- Result dictionary of `forecast_work_items_in_period` (Operation B);
the date echoes are day numbers. -/
structure ForecastPeriodResult where
  simulated_work_items : List ℕ
  percentiles : List (ℕ × ℚ)
  start_date : Option ℤ
  end_date : Option ℤ
  num_iterations : ℕ
  deriving DecidableEq

/-- Embeds `forecast_work_items_in_period` (Operation B).  `df` is the
`cycle_time_days` column when present (`none` embeds the load-error /
missing-column guard); `startDay`/`endDay` are the day numbers of the parsed
`pd.Timestamp` bounds (parsing of the date strings is modelled in the checked
wrapper below, following the validation in `MonteCarloSimulator`), so
`max_days = (end_ts - start_ts).days = endDay - startDay`. -/
def forecast_work_items_in_period (df : Option (List ℚ)) (startDay endDay : ℤ)
    (numIterations fuel : ℕ) (picks : ℕ → ℕ → ℕ) : ForecastPeriodResult :=
  match df with
  | none => ⟨[], [], none, none, numIterations⟩
  | some cycle_times =>
    let maxDays := endDay - startDay
    if cycle_times.length = 0 then ⟨[], [], some startDay, some endDay, numIterations⟩
    else
      let totals := simulate_days cycle_times picks maxDays numIterations fuel
      ⟨totals, percentileTable (totals.map (fun k => (k : ℚ))),
        some startDay, some endDay, numIterations⟩

/-- Running sum of the drawn values, matching the loop: draw number `j`
contributes `choice cts (pick j)`. -/
def drawSum (cts : List ℚ) (pick : ℕ → ℕ) : ℕ → ℚ
  | 0 => 0
  | j + 1 => choice cts (pick j) + drawSum cts pick j

/-- Row of the CSV consumed by `load_and_clean_data`: the `cycle_time_days`
column holds whole days (the repository's own pipeline produces it with
`astype(int)` in `_convert_dates_to_cycle_time`), and `tags` is the raw
comma-separated tag string of the row (`none` embeds a NaN cell). -/
structure WorkItemRow where
  cycle_time_days : ℤ
  tags : Option String

/-- Embeds the per-row tag test of `load_and_clean_data`: a row is kept when
its tag cell is NaN or blank, or when any of its comma-split, stripped tags
is among the selected tags. -/
def rowTagMatch (selectedTags : List String) (tags : Option String) : Bool :=
  match tags with
  | none => true
  | some s =>
    if s.trim = "" then true
    else ((s.splitOn ",").map (fun t => t.trim)).any (fun t => selectedTags.contains t)

/-- Embeds `load_and_clean_data` of `monte_carlo.py` on an already-read frame:
keep rows with `cycle_time_days > 0`, then, when tags are selected, keep rows
matching the tag filter (the frame is assumed to carry a `tags` column, with
`none` cells embedding NaN). -/
def load_and_clean_data (rows : List WorkItemRow) (selectedTags : List String) :
    List WorkItemRow :=
  let cleaned := rows.filter (fun r => 0 < r.cycle_time_days)
  if selectedTags.length > 0 then
    cleaned.filter (fun r => rowTagMatch selectedTags r.tags)
  else cleaned

/-- Embeds the per-row computation of `_convert_dates_to_cycle_time` of
`src/monte_carlo.py`: the inputs are the parsed start and end dates as day
numbers (`none` embeds a NaT from `pd.to_datetime(..., errors="coerce")`);
when both parse, the cycle time is `max(1, (end - start).days + 1)`, and
otherwise the fallback 1. -/
def cycleTimeOfRow (sd ed : Option ℤ) : ℤ :=
  match sd, ed with
  | some s, some e => max 1 (e - s + 1)
  | _, _ => 1

/-- Embeds the column construction of `_convert_dates_to_cycle_time`: one
cycle time per row, no row dropped. -/
def convert_dates_to_cycle_time (rows : List (Option ℤ × Option ℤ)) : List ℤ :=
  rows.map (fun r => cycleTimeOfRow r.1 r.2)

/-- Embeds `df["cycle_time_days"].min()` (reduction over a non-empty column;
the 0 default is never used behind the emptiness guard). -/
def listMin : List ℚ → ℚ
  | [] => 0
  | x :: xs => xs.foldl min x

/-- Embeds `df["cycle_time_days"].max()`. -/
def listMax : List ℚ → ℚ
  | [] => 0
  | x :: xs => xs.foldl max x

/-- Embeds `df["cycle_time_days"].median()` (pandas: middle element of the
sorted data for odd length, mean of the two middle elements for even). -/
def median (data : List ℚ) : ℚ :=
  let s := List.insertionSort (· ≤ ·) data
  let n := data.length
  if n % 2 = 1 then s.getD (n / 2) 0
  else (s.getD (n / 2 - 1) 0 + s.getD (n / 2) 0) / 2

/-- Result dictionary of `_get_data_statistics` of `src/monte_carlo.py`. -/
structure DataStatistics where
  total_items : ℕ
  min_cycle_time : ℚ
  max_cycle_time : ℚ
  median_cycle_time : ℚ
  error : Option String
  deriving DecidableEq

/-- Embeds the `df is None or df.empty or "cycle_time_days" not in df.columns`
branch of `_get_data_statistics`. -/
def noValidDataStatistics : DataStatistics :=
  ⟨0, 0, 0, 0, some "No valid data available"⟩

/-- Embeds `_get_data_statistics`: `df` is the `cycle_time_days` column when
the frame is not `None` and has one (an absent column is `none`; an empty
frame has an empty column). -/
def get_data_statistics (df : Option (List ℚ)) : DataStatistics :=
  match df with
  | none => noValidDataStatistics
  | some cycle_times =>
    if cycle_times.length = 0 then noValidDataStatistics
    else
      ⟨cycle_times.length, listMin cycle_times, listMax cycle_times,
        median cycle_times, none⟩

/-- Digit-string value: `none` on a non-digit character, accumulating the
base-10 value otherwise. -/
def parseDigitsAux : List Char → ℕ → Option ℕ
  | [], acc => some acc
  | c :: cs, acc =>
    if c.isDigit then parseDigitsAux cs (10 * acc + (c.toNat - 48)) else none

/-- Value of a non-empty all-digit character list, `none` otherwise. -/
def parseDigits (cs : List Char) : Option ℕ :=
  match cs with
  | [] => none
  | _ => parseDigitsAux cs 0

/-- Whitespace recognizer of the trimming steps (space, tab, newline,
carriage return — the characters Python's strip removes on these inputs). -/
def isSpaceChar (c : Char) : Bool := c = ' ' ∨ c = '\t' ∨ c = '\n' ∨ c = '\r'

/-- Surrounding-whitespace trimming on explicit character lists, embedding
`str.strip()`. -/
def trimChars (cs : List Char) : List Char :=
  ((cs.dropWhile isSpaceChar).reverse.dropWhile isSpaceChar).reverse

/-- Separator split on explicit character lists, embedding `str.split(sep)`
for a one-character separator: consecutive separators yield empty tokens. -/
def splitOnChar (sep : Char) : List Char → List (List Char)
  | [] => [[]]
  | c :: cs =>
    match splitOnChar sep cs with
    | [] => [[]]
    | t :: ts => if c = sep then [] :: t :: ts else (c :: t) :: ts

/-- Modelled from the spec: the number parsing used by the throughput-text
mode of `prepare` ("parse remaining tokens as numbers"); the implementation
module is absent from the sources, only its tests remain.  A number is a
decimal numeral with an optional sign and an optional fractional part. -/
def parseNumber (cs : List Char) : Option ℚ :=
  let signRest : Bool × List Char :=
    match cs with
    | '-' :: t => (true, t)
    | '+' :: t => (false, t)
    | t => (false, t)
  let body :=
    match splitOnChar '.' signRest.2 with
    | [ip] => (parseDigits ip).map (fun n => (n : ℚ))
    | [ip, fp] =>
      if ip.isEmpty ∧ fp.isEmpty then none
      else
        match (if ip.isEmpty then some 0 else parseDigits ip),
              (if fp.isEmpty then some 0 else parseDigits fp) with
        | some i, some f => some ((i : ℚ) + (f : ℚ) / (10 : ℚ) ^ fp.length)
        | _, _ => none
    | _ => none
  body.map (fun v => if signRest.1 then -v else v)

/-- Modelled from the spec: the token pipeline of the throughput-text mode of
`prepare` — split on comma, trim surrounding whitespace on each token, drop
empty tokens. -/
def throughputTokens (input : String) : List (List Char) :=
  ((splitOnChar ',' (trimChars input.data)).map trimChars).filter (fun t => ¬ t.isEmpty)

/-- Parses every token as a number, failing when any token fails. -/
def parseAll : List (List Char) → Option (List ℚ)
  | [] => some []
  | t :: ts =>
    match parseNumber t, parseAll ts with
    | some v, some vs => some (v :: vs)
    | _, _ => none

/-- Modelled from the spec: `parse_throughput_from_text` (the throughput-text
mode of `prepare`); the implementation module is absent from the sources, only
its tests remain.  Per the spec it fails with an input error when the trimmed
input is empty, when more than 1000 values are given, when a token is
non-numeric, or when a value is negative, and otherwise returns the parsed
sample (zero values preserved). -/
def parse_throughput_from_text (input : String) : Except String (List ℚ) :=
  if (trimChars input.data).isEmpty then Except.error "Input cannot be empty"
  else
    let tokens := throughputTokens input
    if 1000 < tokens.length then Except.error "Too many values (maximum 1000)"
    else
      (parseAll tokens).elim (Except.error "All values must be numeric")
        (fun vals =>
          if vals.any (fun v => v < 0) then
            Except.error "All values must be non-negative"
          else Except.ok vals)

/-- Gregorian leap-year rule, as in the timestamp parsing of pandas. -/
def isLeapYear (y : ℕ) : Bool :=
  y % 4 = 0 && (y % 100 != 0 || y % 400 = 0)

/-- Number of days of month `m` of year `y`. -/
def daysInMonth (y m : ℕ) : ℕ :=
  if m = 2 then (if isLeapYear y then 29 else 28)
  else if m = 4 ∨ m = 6 ∨ m = 9 ∨ m = 11 then 30 else 31

/-- Day number of the civil date `y-m-d` (days since 1970-01-01), for
`y ≥ 1`, `1 ≤ m ≤ 12`, `1 ≤ d ≤ daysInMonth y m`. -/
def daysFromCivil (y m d : ℕ) : ℤ :=
  let yAdj := if m ≤ 2 then y - 1 else y
  let era := yAdj / 400
  let yoe := yAdj % 400
  let mp := (m + 9) % 12
  let doy := (153 * mp + 2) / 5 + (d - 1)
  let doe := yoe * 365 + yoe / 4 - yoe / 100 + doy
  (era : ℤ) * 146097 + (doe : ℤ) - 719468

/-- Embeds `pd.Timestamp(s)` on the documented `YYYY-MM-DD` inputs of the
`MonteCarloSimulator` date parameters: the day number of a valid calendar
date, `none` when the string is not a valid date (on which `pd.Timestamp`
raises `ValueError`). -/
def parseDate (s : String) : Option ℤ :=
  match splitOnChar '-' s.data with
  | [ys, ms, ds] =>
    match parseDigits ys, parseDigits ms, parseDigits ds with
    | some y, some m, some d =>
      if 1 ≤ y ∧ 1 ≤ m ∧ m ≤ 12 ∧ 1 ≤ d ∧ d ≤ daysInMonth y m then
        some (daysFromCivil y m d)
      else none
    | _, _, _ => none
  | _ => none

/-- Error detector on `Except` results. -/
def isErr {α : Type} : Except String α → Bool
  | Except.error _ => true
  | Except.ok _ => false

/-- Embeds `MonteCarloSimulator.forecast_days_for_work_items`: the parameter
validation of the method (raising `ValueError` on non-positive counts) around
the module-level simulation. -/
def checked_forecast_days (df : Option (List ℚ)) (todayDay : ℤ)
    (numWorkItems numIterations : ℤ) (picks : ℕ → ℕ → ℕ) :
    Except String ForecastDaysResult :=
  if numWorkItems ≤ 0 then Except.error "num_work_items must be positive"
  else if numIterations ≤ 0 then Except.error "num_iterations must be positive"
  else Except.ok
    (forecast_days_for_work_items df todayDay numWorkItems.toNat numIterations.toNat picks)

/-- Embeds `MonteCarloSimulator.forecast_work_items_in_period`: the method's
validation — a missing (`none`, embedding Python `None`) or empty date string,
a non-positive iteration count, or a date string `pd.Timestamp` cannot parse
all raise `ValueError` — around the module-level simulation. -/
def checked_forecast_period (df : Option (List ℚ)) (startDate endDate : Option String)
    (numIterations : ℤ) (fuel : ℕ) (picks : ℕ → ℕ → ℕ) :
    Except String ForecastPeriodResult :=
  match startDate with
  | none => Except.error "start_date must be a non-empty string"
  | some sd =>
    if sd = "" then Except.error "start_date must be a non-empty string"
    else
      match endDate with
      | none => Except.error "end_date must be a non-empty string"
      | some ed =>
        if ed = "" then Except.error "end_date must be a non-empty string"
        else if numIterations ≤ 0 then Except.error "num_iterations must be positive"
        else
          match parseDate sd, parseDate ed with
          | some s, some e =>
            Except.ok (forecast_work_items_in_period df s e numIterations.toNat fuel picks)
          | _, _ => Except.error "Invalid date format. Use YYYY-MM-DD"

/-- Element access of `getD` below the length. -/
lemma getD_lt (l : List ℚ) {n : ℕ} (h : n < l.length) : l.getD n 0 = l[n] := by
  simp [List.getD_eq_getElem?_getD, List.getElem?_eq_getElem h]

/-- Every draw of `random.choice` on a non-empty list is an element of it. -/
lemma choice_mem (l : List ℚ) (hl : l ≠ []) (k : ℕ) : choice l k ∈ l := by
  have hlen : 0 < l.length := List.length_pos.mpr hl
  have h : k % l.length < l.length := Nat.mod_lt _ hlen
  rw [choice, getD_lt l h]
  exact List.getElem_mem h

/-- Last entry of the cumulative-sum walk: the sum of the drawn values. -/
lemma cumulative_sum_getLastD (sel : ℕ → ℚ) :
    ∀ n, (cumulative_sum sel n).getLastD 0 = ((List.range n).map sel).sum
  | 0 => by simp [cumulative_sum]
  | n + 1 => by
    simp only [cumulative_sum, List.getLastD_concat, cumulative_sum_getLastD sel n,
      List.range_succ, List.map_append, List.sum_append, List.map_cons, List.map_nil,
      List.sum_cons, List.sum_nil]
    ring

/-- Entry of a list of equal values. -/
lemma getD_all_eq {l : List ℚ} {v : ℚ} (h : ∀ x ∈ l, x = v) {n : ℕ}
    (hn : n < l.length) : l.getD n 0 = v := by
  rw [getD_lt l hn]
  exact h _ (List.getElem_mem hn)

/-- Linear-interpolation quantile of a constant non-empty sample, for
percentile levels inside [0, 1]: the constant itself. -/
lemma quantile_all_eq {data : List ℚ} {v : ℚ} (hne : data ≠ []) (h : ∀ x ∈ data, x = v)
    {p : ℚ} (hp0 : 0 ≤ p) (hp1 : p ≤ 1) : quantile data p = v := by
  have hn : 1 ≤ data.length := List.length_pos.mpr hne
  have hs : ∀ x ∈ List.insertionSort (· ≤ ·) data, x = v := fun x hx =>
    h x ((List.perm_insertionSort _ data).mem_iff.mp hx)
  have hslen : (List.insertionSort (· ≤ ·) data).length = data.length :=
    List.length_insertionSort _ _
  set n := data.length with hn_def
  have hnn : (0 : ℚ) ≤ (n : ℚ) - 1 := by
    have : (1 : ℚ) ≤ (n : ℚ) := by exact_mod_cast hn
    linarith
  set hq := p * ((n : ℚ) - 1) with hq_def
  have hq0 : 0 ≤ hq := mul_nonneg hp0 hnn
  have hq1 : hq ≤ (n : ℚ) - 1 := by
    calc hq ≤ 1 * ((n : ℚ) - 1) := mul_le_mul_of_nonneg_right hp1 hnn
    _ = (n : ℚ) - 1 := one_mul _
  have hfloor_le : ⌊hq⌋ ≤ (n : ℤ) - 1 := by
    have : ((n : ℤ) - 1 : ℤ) = ⌊((n : ℚ) - 1)⌋ := by
      rw [show ((n : ℚ) - 1) = (((n : ℤ) - 1 : ℤ) : ℚ) by push_cast; ring, Int.floor_intCast]
    rw [this]
    exact Int.floor_mono hq1
  have hi_lt : (⌊hq⌋).toNat < n := by omega
  have hj_lt : min ((⌊hq⌋).toNat + 1) (n - 1) < n := by omega
  rw [quantile]
  rw [getD_all_eq hs (by rwa [hslen]), getD_all_eq hs (by rwa [hslen])]
  ring

/-- Operation A with a non-empty sample takes the simulation branch. -/
lemma forecast_days_pos {cts : List ℚ} (hne : cts ≠ []) (todayDay : ℤ)
    (nw ni : ℕ) (picks : ℕ → ℕ → ℕ) :
    forecast_days_for_work_items (some cts) todayDay nw ni picks =
      ⟨simulatedTotals cts picks nw ni,
       percentileTable (simulatedTotals cts picks nw ni),
       (percentileTable (simulatedTotals cts picks nw ni)).map
         (fun pv => (pv.1, addDaysToDate todayDay pv.2)),
       nw, ni⟩ := by
  have hlen : cts.length ≠ 0 := fun h => hne (List.length_eq_zero.mp h)
  simp [forecast_days_for_work_items, hlen]

/-- Number of trial outcomes of Operation A. -/
lemma length_simulatedTotals (cts : List ℚ) (picks : ℕ → ℕ → ℕ) (nw ni : ℕ) :
    (simulatedTotals cts picks nw ni).length = ni := by
  simp [simulatedTotals]

/-- Bounds of the fixed percentile levels, as fractions. -/
lemma percentile_frac_bounds : ∀ p ∈ PERCENTILES, 0 ≤ (p : ℚ) / 100 ∧ (p : ℚ) / 100 ≤ 1 := by
  intro p hp
  fin_cases hp <;> norm_num

/-- C1: every trial outcome of Operation A is the sum of exactly N values each
drawn (with replacement) from the sample, and there are exactly k of them; on
a constant sample with value c every outcome is N·c and every returned
percentile equals N·c. -/
theorem C1_trial_outcome_sums (cts : List ℚ) (hne : cts ≠ []) (N k : ℕ)
    (hN : 0 < N) (hk : 0 < k) (picks : ℕ → ℕ → ℕ) (todayDay : ℤ) :
    (forecast_days_for_work_items (some cts) todayDay N k picks).simulated_durations =
      (List.range k).map
        (fun it => ((List.range N).map (fun t => choice cts (picks it t))).sum) ∧
    (∀ it t, choice cts (picks it t) ∈ cts) ∧
    (∀ c, (∀ x ∈ cts, x = c) →
      (∀ d ∈ (forecast_days_for_work_items (some cts) todayDay N k picks).simulated_durations,
        d = N * c) ∧
      (∀ pv ∈ (forecast_days_for_work_items (some cts) todayDay N k picks).percentiles,
        pv.2 = N * c)) := by
  rw [forecast_days_pos hne]
  have htotals : simulatedTotals cts picks N k =
      (List.range k).map
        (fun it => ((List.range N).map (fun t => choice cts (picks it t))).sum) := by
    simp only [simulatedTotals, cumulative_sum_getLastD]
  refine ⟨htotals, fun it t => choice_mem cts hne _, fun c hc => ?_⟩
  have hconst : ∀ d ∈ simulatedTotals cts picks N k, d = N * c := by
    intro d hd
    rw [htotals] at hd
    obtain ⟨it, _, rfl⟩ := List.mem_map.mp hd
    have : (List.range N).map (fun t => choice cts (picks it t)) =
        List.replicate N c := by
      refine List.eq_replicate_iff.mpr ⟨by simp, ?_⟩
      intro x hx
      obtain ⟨t, _, rfl⟩ := List.mem_map.mp hx
      exact hc _ (choice_mem cts hne _)
    rw [this, List.sum_replicate, nsmul_eq_mul]
  refine ⟨hconst, ?_⟩
  intro pv hpv
  obtain ⟨p, hp, rfl⟩ := List.mem_map.mp hpv
  have hlen : (simulatedTotals cts picks N k) ≠ [] := by
    have := length_simulatedTotals cts picks N k
    intro hnil
    rw [hnil] at this
    simp at this
    omega
  obtain ⟨h0, h1⟩ := percentile_frac_bounds p hp
  exact quantile_all_eq hlen hconst h0 h1

/-- Entries of a sorted list grow with the index. -/
lemma sorted_getD_mono {s : List ℚ} (hs : List.Sorted (· ≤ ·) s) {i j : ℕ}
    (hij : i ≤ j) (hj : j < s.length) : s.getD i 0 ≤ s.getD j 0 := by
  have hi : i < s.length := lt_of_le_of_lt hij hj
  rw [getD_lt s hi, getD_lt s hj]
  have := hs.rel_get_of_le (a := ⟨i, hi⟩) (b := ⟨j, hj⟩) hij
  simpa using this

/-- Monotonicity of the linear-interpolation rule over a sorted list: the
interpolated value is non-decreasing in the fractional rank. -/
lemma interp_mono {s : List ℚ} (hs : List.Sorted (· ≤ ·) s) {n : ℕ}
    (hlen : s.length = n) (hn : 1 ≤ n) {h1 h2 : ℚ} (h10 : 0 ≤ h1) (h12 : h1 ≤ h2)
    (h2top : h2 ≤ (n : ℚ) - 1) :
    s.getD (⌊h1⌋).toNat 0 + (h1 - ((⌊h1⌋).toNat : ℚ)) *
        (s.getD (min ((⌊h1⌋).toNat + 1) (n - 1)) 0 - s.getD (⌊h1⌋).toNat 0) ≤
      s.getD (⌊h2⌋).toNat 0 + (h2 - ((⌊h2⌋).toNat : ℚ)) *
        (s.getD (min ((⌊h2⌋).toNat + 1) (n - 1)) 0 - s.getD (⌊h2⌋).toNat 0) := by
  have h20 : 0 ≤ h2 := le_trans h10 h12
  set i1 := (⌊h1⌋).toNat with hi1def
  set i2 := (⌊h2⌋).toNat with hi2def
  have hc1 : ((i1 : ℤ)) = ⌊h1⌋ := Int.toNat_of_nonneg (Int.floor_nonneg.mpr h10)
  have hc2 : ((i2 : ℤ)) = ⌊h2⌋ := Int.toNat_of_nonneg (Int.floor_nonneg.mpr h20)
  have hq1 : (i1 : ℚ) ≤ h1 := by
    have := Int.floor_le h1
    rw [← hc1] at this
    exact_mod_cast this
  have hq1' : h1 < (i1 : ℚ) + 1 := by
    have := Int.lt_floor_add_one h1
    rw [← hc1] at this
    exact_mod_cast this
  have hq2 : (i2 : ℚ) ≤ h2 := by
    have := Int.floor_le h2
    rw [← hc2] at this
    exact_mod_cast this
  have hi12 : i1 ≤ i2 := by
    have := Int.floor_mono h12
    omega
  have hi2top : i2 ≤ n - 1 := by
    have hfloor2 : ⌊h2⌋ ≤ (n : ℤ) - 1 := by
      have hcast : ((n : ℚ) - 1) = (((n : ℤ) - 1 : ℤ) : ℚ) := by push_cast; ring
      rw [hcast] at h2top
      calc ⌊h2⌋ ≤ ⌊(((n : ℤ) - 1 : ℤ) : ℚ)⌋ := Int.floor_mono h2top
      _ = (n : ℤ) - 1 := Int.floor_intCast _
    omega
  have hi1top : i1 ≤ n - 1 := le_trans hi12 hi2top
  set j1 := min (i1 + 1) (n - 1) with hj1def
  set j2 := min (i2 + 1) (n - 1) with hj2def
  have hj1lt : j1 < s.length := by rw [hlen]; omega
  have hj2lt : j2 < s.length := by rw [hlen]; omega
  have hi2lt : i2 < s.length := by rw [hlen]; omega
  have hab1 : s.getD i1 0 ≤ s.getD j1 0 := sorted_getD_mono hs (by omega) hj1lt
  have hab2 : s.getD i2 0 ≤ s.getD j2 0 := sorted_getD_mono hs (by omega) hj2lt
  rcases Nat.lt_or_ge i1 i2 with hlt | hge
  · have hb1a2 : s.getD j1 0 ≤ s.getD i2 0 := sorted_getD_mono hs (by omega) hi2lt
    have e1 : s.getD i1 0 + (h1 - (i1 : ℚ)) * (s.getD j1 0 - s.getD i1 0) ≤
        s.getD j1 0 := by
      nlinarith [mul_nonneg (by linarith : (0 : ℚ) ≤ 1 - (h1 - (i1 : ℚ)))
        (by linarith : (0 : ℚ) ≤ s.getD j1 0 - s.getD i1 0)]
    have e2 : s.getD i2 0 ≤ s.getD i2 0 + (h2 - (i2 : ℚ)) *
        (s.getD j2 0 - s.getD i2 0) := by
      nlinarith [mul_nonneg (by linarith : (0 : ℚ) ≤ h2 - (i2 : ℚ))
        (by linarith : (0 : ℚ) ≤ s.getD j2 0 - s.getD i2 0)]
    linarith
  · have heq : i1 = i2 := le_antisymm hi12 hge
    have hjeq : j1 = j2 := by rw [hj1def, hj2def, heq]
    rw [heq] at hq1 hq1' hab1 ⊢
    rw [hjeq] at hab1 ⊢
    nlinarith [mul_nonneg (by linarith : (0 : ℚ) ≤ h2 - h1)
      (by linarith : (0 : ℚ) ≤ s.getD j2 0 - s.getD i2 0)]

/-- Monotonicity of `np.quantile` in the percentile level, on a non-empty
sample and levels inside [0, 1]. -/
lemma quantile_mono {data : List ℚ} (hne : data ≠ []) {p q : ℚ}
    (hp0 : 0 ≤ p) (hpq : p ≤ q) (hq1 : q ≤ 1) :
    quantile data p ≤ quantile data q := by
  have hn : 1 ≤ data.length := List.length_pos.mpr hne
  have hnn : (0 : ℚ) ≤ (data.length : ℚ) - 1 := by
    have : (1 : ℚ) ≤ (data.length : ℚ) := by exact_mod_cast hn
    linarith
  have h10 : 0 ≤ p * ((data.length : ℚ) - 1) := mul_nonneg hp0 hnn
  have h12 : p * ((data.length : ℚ) - 1) ≤ q * ((data.length : ℚ) - 1) :=
    mul_le_mul_of_nonneg_right hpq hnn
  have h2top : q * ((data.length : ℚ) - 1) ≤ (data.length : ℚ) - 1 := by
    calc q * ((data.length : ℚ) - 1) ≤ 1 * ((data.length : ℚ) - 1) :=
      mul_le_mul_of_nonneg_right hq1 hnn
    _ = (data.length : ℚ) - 1 := one_mul _
  exact interp_mono (List.sorted_insertionSort _ data)
    (List.length_insertionSort _ data) hn h10 h12 h2top

/-- Trial outcomes of Operation A form a non-empty list when at least one
iteration is requested. -/
lemma simulatedTotals_ne_nil (cts : List ℚ) (picks : ℕ → ℕ → ℕ) (nw : ℕ) {ni : ℕ}
    (hk : 0 < ni) : simulatedTotals cts picks nw ni ≠ [] := by
  intro hnil
  have := length_simulatedTotals cts picks nw ni
  rw [hnil] at this
  simp at this
  omega

/-- C4: the five percentile values returned by Operation A are non-decreasing
in percentile order — any returned percentile entry with a smaller level has a
value no larger than one with a bigger level, hence value(70) ≤ value(80) ≤
value(90) ≤ value(95) ≤ value(98). -/
theorem C4_percentiles_monotone (cts : List ℚ) (hne : cts ≠ []) (N k : ℕ)
    (hN : 0 < N) (hk : 0 < k) (picks : ℕ → ℕ → ℕ) (todayDay : ℤ) :
    ∀ pv qv,
      pv ∈ (forecast_days_for_work_items (some cts) todayDay N k picks).percentiles →
      qv ∈ (forecast_days_for_work_items (some cts) todayDay N k picks).percentiles →
      pv.1 ≤ qv.1 → pv.2 ≤ qv.2 := by
  rw [forecast_days_pos hne]
  intro pv qv hp hq hle
  obtain ⟨p, hpmem, rfl⟩ := List.mem_map.mp hp
  obtain ⟨q, hqmem, rfl⟩ := List.mem_map.mp hq
  have hple : p ≤ q := hle
  have hne' : simulatedTotals cts picks N k ≠ [] := simulatedTotals_ne_nil cts picks N hk
  obtain ⟨hp0, hp1⟩ := percentile_frac_bounds p hpmem
  obtain ⟨hq0, hq1⟩ := percentile_frac_bounds q hqmem
  refine quantile_mono hne' hp0 ?_ hq1
  have : (p : ℚ) ≤ (q : ℚ) := by exact_mod_cast hple
  linarith

/-- C2: for every row of start/end date pairs, the derived cycle time equals
(end − start in whole days) + 1 floored at 1; equal dates give 1, dates 9 days
apart give 10, a row with an unparseable date gets the fallback 1, and no row
is dropped (the output column has one entry per row; the conversion is a total
function, so no error is raised). -/
theorem C2_cycle_time_from_dates :
    (∀ rows, (convert_dates_to_cycle_time rows).length = rows.length) ∧
    (∀ s e : ℤ, cycleTimeOfRow (some s) (some e) = max 1 (e - s + 1)) ∧
    (∀ s : ℤ, cycleTimeOfRow (some s) (some s) = 1) ∧
    (∀ s : ℤ, cycleTimeOfRow (some s) (some (s + 9)) = 10) ∧
    (∀ ed, cycleTimeOfRow none ed = 1) ∧
    (∀ sd, cycleTimeOfRow sd none = 1) := by
  refine ⟨fun rows => List.length_map _ _, fun s e => rfl, fun s => ?_, fun s => ?_,
    fun ed => rfl, fun sd => ?_⟩
  · show max 1 (s - s + 1) = 1
    omega
  · show max 1 (s + 9 - s + 1) = 10
    omega
  · cases sd <;> rfl

/-- C5: a forecast call (Operation A or Operation B) whose sample is empty, or
whose input lacks the cycle-time column (`df = none`), returns a well-formed
result with an empty outcome list and empty percentile maps — the functions
are total, so no exception is raised. -/
theorem C5_empty_sample_sentinel :
    ∀ (todayDay : ℤ) (nw ni : ℕ) (picks : ℕ → ℕ → ℕ) (sd ed : ℤ) (fuel : ℕ),
      (forecast_days_for_work_items none todayDay nw ni picks).simulated_durations = [] ∧
      (forecast_days_for_work_items none todayDay nw ni picks).percentiles = [] ∧
      (forecast_days_for_work_items none todayDay nw ni picks).percentile_dates = [] ∧
      (forecast_days_for_work_items (some []) todayDay nw ni picks).simulated_durations = [] ∧
      (forecast_days_for_work_items (some []) todayDay nw ni picks).percentiles = [] ∧
      (forecast_days_for_work_items (some []) todayDay nw ni picks).percentile_dates = [] ∧
      (forecast_work_items_in_period none sd ed ni fuel picks).simulated_work_items = [] ∧
      (forecast_work_items_in_period none sd ed ni fuel picks).percentiles = [] ∧
      (forecast_work_items_in_period (some []) sd ed ni fuel picks).simulated_work_items = [] ∧
      (forecast_work_items_in_period (some []) sd ed ni fuel picks).percentiles = [] := by
  intro todayDay nw ni picks sd ed fuel
  exact ⟨rfl, rfl, rfl, rfl, rfl, rfl, rfl, rfl, rfl, rfl⟩

/-- Accumulating one more draw, matching the loop body. -/
lemma drawSum_succ (cts : List ℚ) (pick : ℕ → ℕ) (j : ℕ) :
    drawSum cts pick (j + 1) = choice cts (pick j) + drawSum cts pick j := rfl

/-- Runs of the resampling loop that stop with `some r` stop exactly at the
first draw that would push the running total past `max_days`: every total
reached while accumulating stays at or below `max_days`, and the discarded
draw would exceed it. -/
lemma simulateTrialLoop_spec (cts : List ℚ) (pick : ℕ → ℕ) (maxDays : ℤ) :
    ∀ (fuel count r : ℕ),
      simulateTrialLoop cts pick maxDays fuel count (drawSum cts pick count) = some r →
      count ≤ r ∧ (maxDays : ℚ) < drawSum cts pick (r + 1) ∧
        ∀ j, count < j → j ≤ r → drawSum cts pick j ≤ (maxDays : ℚ)
  | 0, count, r => by simp [simulateTrialLoop]
  | fuel + 1, count, r => by
    intro h
    rw [simulateTrialLoop] at h
    by_cases hbr : (maxDays : ℚ) < choice cts (pick count) + drawSum cts pick count
    · rw [if_pos hbr] at h
      obtain rfl : count = r := Option.some.inj h
      refine ⟨le_refl _, ?_, fun j h1 h2 => absurd (lt_of_lt_of_le h1 h2) (lt_irrefl _)⟩
      rw [drawSum_succ]
      exact hbr
    · rw [if_neg hbr] at h
      rw [show choice cts (pick count) + drawSum cts pick count =
        drawSum cts pick (count + 1) from (drawSum_succ cts pick count).symm] at h
      obtain ⟨hle, hstop, hbelow⟩ := simulateTrialLoop_spec cts pick maxDays fuel (count + 1) r h
      refine ⟨by omega, hstop, ?_⟩
      intro j h1 h2
      rcases Nat.lt_or_ge count.succ j with hj | hj
      · exact hbelow j hj h2
      · have : j = count + 1 := by omega
        subst this
        rw [drawSum_succ]
        exact le_of_not_lt hbr

/-- Extra fuel does not change a run that has already stopped. -/
lemma simulateTrialLoop_fuel_mono (cts : List ℚ) (pick : ℕ → ℕ) (maxDays : ℤ) :
    ∀ (fuel fuel' count : ℕ) (total : ℚ) (r : ℕ), fuel ≤ fuel' →
      simulateTrialLoop cts pick maxDays fuel count total = some r →
      simulateTrialLoop cts pick maxDays fuel' count total = some r
  | 0, _, _, _, _ => by simp [simulateTrialLoop]
  | fuel + 1, fuel', count, total, r => by
    intro hle h
    obtain ⟨f, rfl⟩ : ∃ f, fuel' = f + 1 := ⟨fuel' - 1, by omega⟩
    rw [simulateTrialLoop] at h ⊢
    by_cases hbr : (maxDays : ℚ) < choice cts (pick count) + total
    · rwa [if_pos hbr] at h ⊢
    · rw [if_neg hbr] at h ⊢
      exact simulateTrialLoop_fuel_mono cts pick maxDays fuel f (count + 1) _ r (by omega) h

/-- Draws of at least one day make the running sum grow by at least one. -/
lemma drawSum_step {cts : List ℚ} (hne : cts ≠ []) (hpos : ∀ x ∈ cts, (1 : ℚ) ≤ x)
    (pick : ℕ → ℕ) (j : ℕ) :
    drawSum cts pick j + 1 ≤ drawSum cts pick (j + 1) := by
  have := hpos _ (choice_mem cts hne (pick j))
  rw [drawSum_succ]
  linarith

/-- With draws of at least one day, the running sum dominates the number of
draws. -/
lemma drawSum_ge_count {cts : List ℚ} (hne : cts ≠ []) (hpos : ∀ x ∈ cts, (1 : ℚ) ≤ x)
    (pick : ℕ → ℕ) : ∀ j : ℕ, (j : ℚ) ≤ drawSum cts pick j := by
  intro j
  induction j with
  | zero => simp [drawSum]
  | succ j ih =>
    have h2 := drawSum_step hne hpos pick j
    push_cast
    linarith

/-- With draws of at least one day, the resampling loop stops within the given
fuel whenever the fuel exceeds what remains of `max_days`. -/
lemma simulateTrialLoop_total {cts : List ℚ} (hne : cts ≠ [])
    (hpos : ∀ x ∈ cts, (1 : ℚ) ≤ x) (pick : ℕ → ℕ) (maxDays : ℤ) :
    ∀ (fuel count : ℕ), (maxDays : ℚ) < drawSum cts pick count + fuel + 1 →
      ∃ r, simulateTrialLoop cts pick maxDays (fuel + 1) count (drawSum cts pick count) = some r
  | 0, count => by
    intro hfuel
    refine ⟨count, ?_⟩
    rw [simulateTrialLoop, if_pos ?_]
    have := drawSum_step hne hpos pick count
    rw [drawSum_succ] at this
    push_cast at hfuel
    linarith
  | fuel + 1, count => by
    intro hfuel
    rw [simulateTrialLoop]
    by_cases hbr : (maxDays : ℚ) < choice cts (pick count) + drawSum cts pick count
    · exact ⟨count, by rw [if_pos hbr]⟩
    · rw [if_neg hbr]
      rw [show choice cts (pick count) + drawSum cts pick count =
        drawSum cts pick (count + 1) from (drawSum_succ cts pick count).symm]
      refine simulateTrialLoop_total hne hpos pick maxDays fuel (count + 1) ?_
      have := drawSum_step hne hpos pick count
      push_cast at hfuel ⊢
      linarith

/-- C3: whenever a trial of Operation B's resampling loop stops (result
`some r`), the recorded item count `r` is the number of draws accumulated
while the running total stays at or below `max_days`, the draw that would
first exceed `max_days` being discarded and not counted; in particular on the
singleton sample [10] with a 1-day period every trial reports 0 items. -/
theorem C3_period_trial_count (cts : List ℚ) (pick : ℕ → ℕ) (maxDays : ℤ)
    (fuel r : ℕ) (h : simulateTrialLoop cts pick maxDays fuel 0 0 = some r) :
    ((maxDays : ℚ) < drawSum cts pick (r + 1) ∧
      ∀ j, 1 ≤ j → j ≤ r → drawSum cts pick j ≤ (maxDays : ℚ)) ∧
    (∀ (pick' : ℕ → ℕ) (fuel' : ℕ), 1 ≤ fuel' →
      simulateTrialLoop [10] pick' 1 fuel' 0 0 = some 0) ∧
    (∀ (picks : ℕ → ℕ → ℕ) (ni fuel' : ℕ), 1 ≤ fuel' →
      ∀ x ∈ simulate_days [10] picks 1 ni fuel', x = 0) := by
  have hsingle : ∀ (pick' : ℕ → ℕ) (fuel' : ℕ), 1 ≤ fuel' →
      simulateTrialLoop [10] pick' 1 fuel' 0 0 = some 0 := by
    intro pick' fuel' hf
    obtain ⟨f, rfl⟩ : ∃ f, fuel' = f + 1 := ⟨fuel' - 1, by omega⟩
    have hcond : ((1 : ℤ) : ℚ) < choice [10] (pick' 0) + 0 := by
      norm_num [choice, Nat.mod_one]
    rw [simulateTrialLoop, if_pos hcond]
  refine ⟨?_, hsingle, ?_⟩
  · have h0 : drawSum cts pick 0 = 0 := rfl
    rw [← h0] at h
    obtain ⟨-, hstop, hbelow⟩ := simulateTrialLoop_spec cts pick maxDays fuel 0 r h
    exact ⟨hstop, fun j h1 h2 => hbelow j (by omega) h2⟩
  · intro picks ni fuel' hf x hx
    obtain ⟨it, -, rfl⟩ := List.mem_map.mp hx
    rw [hsingle (picks it) fuel' hf]
    rfl

/-- Cycle times surviving `load_and_clean_data` are positive whole days. -/
lemma load_and_clean_data_pos (rows : List WorkItemRow) (selectedTags : List String) :
    ∀ row ∈ load_and_clean_data rows selectedTags, 0 < row.cycle_time_days := by
  intro row hrow
  rw [load_and_clean_data] at hrow
  by_cases hsel : selectedTags.length > 0
  · rw [if_pos hsel] at hrow
    have := (List.mem_filter.mp hrow).1
    have := (List.mem_filter.mp this).2
    exact of_decide_eq_true this
  · rw [if_neg hsel] at hrow
    exact of_decide_eq_true (List.mem_filter.mp hrow).2

/-- C10: a sample reaching Operation B's resampling loop through
`load_and_clean_data` consists of values ≥ 1 (the filter keeps rows with
positive whole-day cycle times), and on such a sample each trial's loop stops
within `max_days + 1` draws — any fuel of at least `maxDays.toNat + 1` yields
the same stopped run — with an item count of at most `max 0 max_days`. -/
theorem C10_loop_termination_bound (rows : List WorkItemRow)
    (selectedTags : List String) (pick : ℕ → ℕ) (maxDays : ℤ)
    (hne : (load_and_clean_data rows selectedTags).map
      (fun row => (row.cycle_time_days : ℚ)) ≠ []) :
    (∀ x ∈ (load_and_clean_data rows selectedTags).map
      (fun row => (row.cycle_time_days : ℚ)), 1 ≤ x) ∧
    (∃ r, (∀ fuel, maxDays.toNat + 1 ≤ fuel →
        simulateTrialLoop ((load_and_clean_data rows selectedTags).map
          (fun row => (row.cycle_time_days : ℚ))) pick maxDays fuel 0 0 = some r) ∧
      (r : ℤ) ≤ max 0 maxDays) := by
  set cts := (load_and_clean_data rows selectedTags).map
    (fun row => (row.cycle_time_days : ℚ)) with hcts
  have hpos : ∀ x ∈ cts, (1 : ℚ) ≤ x := by
    intro x hx
    rw [hcts] at hx
    obtain ⟨row, hrow, rfl⟩ := List.mem_map.mp hx
    have := load_and_clean_data_pos rows selectedTags row hrow
    exact_mod_cast this
  refine ⟨hpos, ?_⟩
  have h0 : drawSum cts pick 0 = 0 := rfl
  obtain ⟨r, hr⟩ := simulateTrialLoop_total hne hpos pick maxDays maxDays.toNat 0 (by
    rw [h0]
    have : (maxDays : ℚ) ≤ (maxDays.toNat : ℚ) := by exact_mod_cast Int.self_le_toNat maxDays
    linarith)
  rw [h0] at hr
  refine ⟨r, fun fuel hfuel => simulateTrialLoop_fuel_mono cts pick maxDays
    (maxDays.toNat + 1) fuel 0 0 r hfuel hr, ?_⟩
  rw [← h0] at hr
  obtain ⟨-, -, hbelow⟩ := simulateTrialLoop_spec cts pick maxDays (maxDays.toNat + 1) 0 r hr
  rcases Nat.eq_zero_or_pos r with rfl | hrpos
  · simp
  · have h1 : drawSum cts pick r ≤ (maxDays : ℚ) := hbelow r (by omega) (le_refl r)
    have h2 : (r : ℚ) ≤ drawSum cts pick r := drawSum_ge_count hne hpos pick r
    have : (r : ℚ) ≤ (maxDays : ℚ) := le_trans h2 h1
    have : (r : ℤ) ≤ maxDays := by exact_mod_cast this
    omega

/-- Token parsing fails exactly when some token is not a number. -/
lemma parseAll_eq_none_iff : ∀ ts : List (List Char),
    parseAll ts = none ↔ ∃ t ∈ ts, parseNumber t = none
  | [] => by simp [parseAll]
  | t :: ts => by
    rw [parseAll]
    rcases hpt : parseNumber t with _ | v
    · constructor
      · intro _
        exact ⟨t, List.mem_cons_self t ts, hpt⟩
      · intro _
        rfl
    · rcases hall : parseAll ts with _ | vs
      · constructor
        · intro _
          obtain ⟨u, hu, hn⟩ := (parseAll_eq_none_iff ts).mp hall
          exact ⟨u, List.mem_cons_of_mem t hu, hn⟩
        · intro _
          rfl
      · constructor
        · intro hc
          exact Option.noConfusion hc
        · rintro ⟨u, hu, hn⟩
          rcases List.mem_cons.mp hu with rfl | hu'
          · rw [hpt] at hn
            exact Option.noConfusion hn
          · have := (parseAll_eq_none_iff ts).mpr ⟨u, hu', hn⟩
            rw [hall] at this
            exact Option.noConfusion this

/-- When token parsing succeeds, every token's value is among the results. -/
lemma parseAll_mem_some : ∀ (ts : List (List Char)) (vals : List ℚ),
    parseAll ts = some vals → ∀ t ∈ ts, ∃ v ∈ vals, parseNumber t = some v
  | [], _ => by simp
  | t :: ts, vals => by
    rw [parseAll]
    rcases hpt : parseNumber t with _ | v
    · intro hc
      exact Option.noConfusion hc
    · rcases hall : parseAll ts with _ | vs
      · intro hc
        exact Option.noConfusion hc
      · intro hc u hu
        obtain rfl : v :: vs = vals := Option.some.inj hc
        rcases List.mem_cons.mp hu with rfl | hu'
        · exact ⟨v, List.mem_cons_self v vs, hpt⟩
        · obtain ⟨w, hw, hpw⟩ := parseAll_mem_some ts vs hall u hu'
          exact ⟨w, List.mem_cons_of_mem _ hw, hpw⟩

/-- When token parsing succeeds, every result comes from some token. -/
lemma parseAll_vals_mem : ∀ (ts : List (List Char)) (vals : List ℚ),
    parseAll ts = some vals → ∀ v ∈ vals, ∃ t ∈ ts, parseNumber t = some v
  | [], vals => by
    intro hc
    obtain rfl : ([] : List ℚ) = vals := Option.some.inj hc
    simp
  | t :: ts, vals => by
    rw [parseAll]
    rcases hpt : parseNumber t with _ | v
    · intro hc
      exact Option.noConfusion hc
    · rcases hall : parseAll ts with _ | vs
      · intro hc
        exact Option.noConfusion hc
      · intro hc w hw
        obtain rfl : v :: vs = vals := Option.some.inj hc
        rcases List.mem_cons.mp hw with rfl | hw'
        · exact ⟨t, List.mem_cons_self t ts, hpt⟩
        · obtain ⟨u, hu, hpu⟩ := parseAll_vals_mem ts vs hall w hw'
          exact ⟨u, List.mem_cons_of_mem _ hu, hpu⟩

/-- C6: throughput-text parsing splits on commas, trims tokens, drops empty
tokens (so "2, 3, 5, 2" gives [2,3,5,2] and "2,,3" gives [2,3], zeros
preserved), and fails exactly when the trimmed input is empty, more than 1000
tokens remain, a token is non-numeric, or a value is negative. -/
theorem C6_throughput_text_mode :
    ((parse_throughput_from_text "2, 3, 5, 2").toOption = some [2, 3, 5, 2]) ∧
    ((parse_throughput_from_text "2,,3").toOption = some [2, 3]) ∧
    ((parse_throughput_from_text "2,0,3,0").toOption = some [2, 0, 3, 0]) ∧
    ((parse_throughput_from_text "2,3,-1").toOption = none) ∧
    (∀ s : String, (parse_throughput_from_text s).toOption = none ↔
      ((trimChars s.data).isEmpty = true ∨
        1000 < (throughputTokens s).length ∨
        (∃ t ∈ throughputTokens s, parseNumber t = none) ∨
        (∃ t ∈ throughputTokens s, ∃ v, parseNumber t = some v ∧ v < 0))) := by
  refine ⟨by decide, by decide, by decide, by decide, ?_⟩
  intro s
  simp only [parse_throughput_from_text]
  by_cases hemp : (trimChars s.data).isEmpty = true
  · rw [if_pos hemp]
    exact iff_of_true rfl (Or.inl hemp)
  · rw [if_neg hemp]
    by_cases hlen : 1000 < (throughputTokens s).length
    · rw [if_pos hlen]
      exact iff_of_true rfl (Or.inr (Or.inl hlen))
    · rw [if_neg hlen]
      rcases hall : parseAll (throughputTokens s) with _ | vals
      · rw [Option.elim_none]
        exact iff_of_true rfl
          (Or.inr (Or.inr (Or.inl ((parseAll_eq_none_iff _).mp hall))))
      · rw [Option.elim_some]
        by_cases hneg : vals.any (fun v => v < 0) = true
        · rw [if_pos hneg]
          obtain ⟨v, hv, hvneg⟩ := List.any_eq_true.mp hneg
          obtain ⟨t, ht, hpt⟩ := parseAll_vals_mem _ _ hall v hv
          exact iff_of_true rfl
            (Or.inr (Or.inr (Or.inr ⟨t, ht, v, hpt, of_decide_eq_true hvneg⟩)))
        · rw [if_neg hneg]
          constructor
          · intro hc
            exact Option.noConfusion hc
          · rintro (hc | hc | ⟨t, ht, hn⟩ | ⟨t, ht, v, hpt, hvneg⟩)
            · exact absurd hc hemp
            · exact absurd hc hlen
            · have := (parseAll_eq_none_iff _).mpr ⟨t, ht, hn⟩
              rw [hall] at this
              exact Option.noConfusion this
            · obtain ⟨w, hw, hpw⟩ := parseAll_mem_some _ _ hall t ht
              rw [hpt] at hpw
              obtain rfl : v = w := Option.some.inj hpw
              have : vals.any (fun v => v < 0) = true :=
                List.any_eq_true.mpr ⟨v, hw, decide_eq_true hvneg⟩
              exact absurd this hneg

/-- C8: `_get_data_statistics` on the sample [2,4,6,8,10] reports 5 items,
minimum 2, maximum 10 and median 6 with no error, and on an absent frame, an
empty frame, or a frame without the cycle-time column it returns the explicit
"No valid data available" marker — again as a value, not an exception. -/
theorem C8_describe_statistics :
    get_data_statistics (some [2, 4, 6, 8, 10]) = ⟨5, 2, 10, 6, none⟩ ∧
    get_data_statistics none = noValidDataStatistics ∧
    get_data_statistics (some []) = noValidDataStatistics ∧
    noValidDataStatistics.error = some "No valid data available" := by
  refine ⟨by decide, rfl, rfl, rfl⟩

/-- C9: in Operation A each returned percentile value maps to a projected
completion date: the reference start day (today's date, there being no
caller-supplied start in the code) plus the percentile value in days, the
fractional part of the value dropped by the timestamp-to-date truncation. -/
theorem C9_percentile_dates (cts : List ℚ) (hne : cts ≠ []) (N k : ℕ)
    (hN : 0 < N) (hk : 0 < k) (picks : ℕ → ℕ → ℕ) (todayDay : ℤ) :
    ∀ p ∈ PERCENTILES, ∃ v,
      ((forecast_days_for_work_items (some cts) todayDay N k picks).percentiles).lookup p
        = some v ∧
      ((forecast_days_for_work_items (some cts) todayDay N k picks).percentile_dates).lookup p
        = some (todayDay + ⌊v⌋) := by
  rw [forecast_days_pos hne]
  intro p hp
  refine ⟨quantile (simulatedTotals cts picks N k) ((p : ℚ) / 100), ?_, ?_⟩
  · simp only [PERCENTILES] at hp
    fin_cases hp <;> simp [percentileTable, PERCENTILES, List.lookup]
  · simp only [PERCENTILES] at hp
    fin_cases hp <;> simp [percentileTable, PERCENTILES, List.lookup, addDaysToDate]

/-- C7: the simulator's forecast methods fail fast with an error — not a
sentinel result — on a non-positive work-item count, a non-positive iteration
count, a missing or empty date-string bound, and a date string the timestamp
parser rejects. -/
theorem C7_fail_fast_validation (df : Option (List ℚ)) (todayDay : ℤ)
    (nw ni : ℤ) (picks : ℕ → ℕ → ℕ) (sdate edate : Option String) (fuel : ℕ) :
    (nw ≤ 0 ∨ ni ≤ 0 → isErr (checked_forecast_days df todayDay nw ni picks) = true) ∧
    (ni ≤ 0 → isErr (checked_forecast_period df sdate edate ni fuel picks) = true) ∧
    (sdate = none ∨ sdate = some "" ∨ edate = none ∨ edate = some "" →
      isErr (checked_forecast_period df sdate edate ni fuel picks) = true) ∧
    (∀ s, sdate = some s → parseDate s = none →
      isErr (checked_forecast_period df sdate edate ni fuel picks) = true) ∧
    (∀ e, edate = some e → parseDate e = none →
      isErr (checked_forecast_period df sdate edate ni fuel picks) = true) := by
  refine ⟨?_, ?_, ?_, ?_, ?_⟩
  · intro h
    unfold checked_forecast_days
    by_cases h1 : nw ≤ 0
    · rw [if_pos h1]
      rfl
    · have h2 : ni ≤ 0 := by omega
      rw [if_neg h1, if_pos h2]
      rfl
  · intro h
    rcases sdate with _ | sd
    · rfl
    · by_cases hs : sd = ""
      · subst hs
        simp [checked_forecast_period, isErr]
      · rcases edate with _ | ed
        · simp [checked_forecast_period, hs, isErr]
        · by_cases he : ed = ""
          · subst he
            simp [checked_forecast_period, hs, isErr]
          · simp [checked_forecast_period, hs, he, h, isErr]
  · intro h
    rcases sdate with _ | sd
    · rfl
    · by_cases hs : sd = ""
      · subst hs
        simp [checked_forecast_period, isErr]
      · rcases edate with _ | ed
        · simp [checked_forecast_period, hs, isErr]
        · by_cases he : ed = ""
          · subst he
            simp [checked_forecast_period, hs, isErr]
          · exfalso
            rcases h with h | h | h | h
            · exact Option.noConfusion h
            · exact hs (Option.some.inj h)
            · exact Option.noConfusion h
            · exact he (Option.some.inj h)
  · intro s hseq hpnone
    subst hseq
    by_cases hs : s = ""
    · subst hs
      simp [checked_forecast_period, isErr]
    · rcases edate with _ | ed
      · simp [checked_forecast_period, hs, isErr]
      · by_cases he : ed = ""
        · subst he
          simp [checked_forecast_period, hs, isErr]
        · by_cases hni : ni ≤ 0
          · simp [checked_forecast_period, hs, he, hni, isErr]
          · rcases hpe : parseDate ed with _ | e <;>
              simp [checked_forecast_period, hs, he, hni, hpnone, hpe, isErr]
  · intro e heeq hpnone
    subst heeq
    rcases sdate with _ | sd
    · rfl
    · by_cases hs : sd = ""
      · subst hs
        simp [checked_forecast_period, isErr]
      · by_cases he : e = ""
        · subst he
          simp [checked_forecast_period, hs, isErr]
        · by_cases hni : ni ≤ 0
          · simp [checked_forecast_period, hs, he, hni, isErr]
          · rcases hps : parseDate sd with _ | sv <;>
              simp [checked_forecast_period, hs, he, hni, hpnone, hps, isErr]

/-- Witness for C1 on the singleton sample [2], one work item, one trial. -/
theorem C1_trial_outcome_sums_witness :
    ([2] : List ℚ) ≠ [] ∧ 0 < 1 ∧
    ((forecast_days_for_work_items (some [2]) 0 1 1 (fun _ _ => 0)).simulated_durations =
        (List.range 1).map (fun it => ((List.range 1).map (fun t => choice [2] 0)).sum) ∧
      (∀ it t : ℕ, choice [2] 0 ∈ ([2] : List ℚ)) ∧
      (∀ c, (∀ x ∈ ([2] : List ℚ), x = c) →
        (∀ d ∈ (forecast_days_for_work_items (some [2]) 0 1 1
            (fun _ _ => 0)).simulated_durations, d = 1 * c) ∧
        (∀ pv ∈ (forecast_days_for_work_items (some [2]) 0 1 1
            (fun _ _ => 0)).percentiles, pv.2 = 1 * c))) :=
  ⟨by decide, by decide,
    C1_trial_outcome_sums [2] (by decide) 1 1 (by decide) (by decide) (fun _ _ => 0) 0⟩

/-- Witness for C3 on the sample [2] with a 7-day period: the loop stops at
three accumulated draws. -/
theorem C3_period_trial_count_witness :
    simulateTrialLoop [2] (fun _ => 0) 7 4 0 0 = some 3 ∧
    ((((7 : ℤ) : ℚ) < drawSum [2] (fun _ => 0) (3 + 1) ∧
        ∀ j, 1 ≤ j → j ≤ 3 → drawSum [2] (fun _ => 0) j ≤ ((7 : ℤ) : ℚ)) ∧
      (∀ (pick' : ℕ → ℕ) (fuel' : ℕ), 1 ≤ fuel' →
        simulateTrialLoop [10] pick' 1 fuel' 0 0 = some 0) ∧
      (∀ (picks : ℕ → ℕ → ℕ) (ni fuel' : ℕ), 1 ≤ fuel' →
        ∀ x ∈ simulate_days [10] picks 1 ni fuel', x = 0)) :=
  ⟨by norm_num [simulateTrialLoop, choice],
    C3_period_trial_count [2] (fun _ => 0) 7 4 3 (by norm_num [simulateTrialLoop, choice])⟩

/-- Witness for C4 on the singleton sample [2], one work item, one trial. -/
theorem C4_percentiles_monotone_witness :
    ([2] : List ℚ) ≠ [] ∧ 0 < 1 ∧
    (∀ pv qv,
      pv ∈ (forecast_days_for_work_items (some [2]) 0 1 1 (fun _ _ => 0)).percentiles →
      qv ∈ (forecast_days_for_work_items (some [2]) 0 1 1 (fun _ _ => 0)).percentiles →
      pv.1 ≤ qv.1 → pv.2 ≤ qv.2) :=
  ⟨by decide, by decide,
    C4_percentiles_monotone [2] (by decide) 1 1 (by decide) (by decide) (fun _ _ => 0) 0⟩

/-- Witness for C7 at concrete invalid parameters: a zero work-item count, a
negative iteration count, a missing start date, an unparseable start date, and
an invalid calendar end date all produce errors. -/
theorem C7_fail_fast_validation_witness :
    isErr (checked_forecast_days (some [1]) 0 0 5 (fun _ _ => 0)) = true ∧
    isErr (checked_forecast_period (some [1]) (some "2024-01-01") (some "2024-01-08")
      (-1) 10 (fun _ _ => 0)) = true ∧
    isErr (checked_forecast_period (some [1]) none (some "2024-01-08")
      5 10 (fun _ _ => 0)) = true ∧
    isErr (checked_forecast_period (some [1]) (some "garbage") (some "2024-01-08")
      5 10 (fun _ _ => 0)) = true ∧
    isErr (checked_forecast_period (some [1]) (some "2024-01-01") (some "2024-13-01")
      5 10 (fun _ _ => 0)) = true :=
  ⟨(C7_fail_fast_validation (some [1]) 0 0 5 (fun _ _ => 0) none none 10).1
      (Or.inl (by decide)),
    (C7_fail_fast_validation (some [1]) 0 1 (-1) (fun _ _ => 0)
      (some "2024-01-01") (some "2024-01-08") 10).2.1 (by decide),
    (C7_fail_fast_validation (some [1]) 0 1 5 (fun _ _ => 0)
      none (some "2024-01-08") 10).2.2.1 (Or.inl rfl),
    (C7_fail_fast_validation (some [1]) 0 1 5 (fun _ _ => 0)
      (some "garbage") (some "2024-01-08") 10).2.2.2.1 "garbage" rfl (by decide),
    (C7_fail_fast_validation (some [1]) 0 1 5 (fun _ _ => 0)
      (some "2024-01-01") (some "2024-13-01") 10).2.2.2.2 "2024-13-01" rfl (by decide)⟩

/-- Witness for C9 on the singleton sample [2], one work item, one trial. -/
theorem C9_percentile_dates_witness :
    ([2] : List ℚ) ≠ [] ∧ 0 < 1 ∧
    (∀ p ∈ PERCENTILES, ∃ v,
      ((forecast_days_for_work_items (some [2]) 0 1 1 (fun _ _ => 0)).percentiles).lookup p
        = some v ∧
      ((forecast_days_for_work_items (some [2]) 0 1 1
          (fun _ _ => 0)).percentile_dates).lookup p = some (0 + ⌊v⌋)) :=
  ⟨by decide, by decide,
    C9_percentile_dates [2] (by decide) 1 1 (by decide) (by decide) (fun _ _ => 0) 0⟩

/-- Witness for C10 on a one-row frame with cycle time 3 and a 5-day period. -/
theorem C10_loop_termination_bound_witness :
    (load_and_clean_data [⟨3, none⟩] []).map (fun row => (row.cycle_time_days : ℚ)) ≠ [] ∧
    ((∀ x ∈ (load_and_clean_data [⟨3, none⟩] []).map
        (fun row => (row.cycle_time_days : ℚ)), 1 ≤ x) ∧
      (∃ r, (∀ fuel, (5 : ℤ).toNat + 1 ≤ fuel →
          simulateTrialLoop ((load_and_clean_data [⟨3, none⟩] []).map
            (fun row => (row.cycle_time_days : ℚ))) (fun _ => 0) 5 fuel 0 0 = some r) ∧
        (r : ℤ) ≤ max 0 5)) :=
  ⟨by decide, C10_loop_termination_bound [⟨3, none⟩] [] (fun _ => 0) 5 (by decide)⟩

end Kwando
